import Mathlib

/-!
Shallow embedding of the LibreOffice convert route
(`pkg/modules/libreoffice/routes.go`, function `convertRoute`).

The handler is modelled as a deterministic Lean function over:
* a `FormData` record holding the parsed multipart form fields, and
* an `Env` record of oracles standing for the external collaborators
  (`libreOffice.Html`, `libreOffice.Pdf`, `engine.Merge`, `engine.Convert`,
  `ctx.AddOutputPaths`).

`ctx.GeneratePath(ext)` is modelled by a counter: the k-th generated path of a
request is `{ id := k, ext := ext }`, which captures the per-request uniqueness
guarantee of the path allocator.

The run of the handler produces an outcome (success, or a bad-request /
internal failure, mirroring `api.WrapError` with `http.StatusBadRequest`
versus a plain wrapped error) together with the ordered trace of collaborator
calls, so that claims about which operations run, in which order and on which
artifacts can be stated and proved.
-/

namespace Gotenberg

/-- `gotenberg.PdfFormats`: the PDF/A variant and the PDF/UA toggle. -/
structure PdfFormats where
  pdfA : String
  pdfUa : Bool
deriving DecidableEq, Repr

/-- The zero value `gotenberg.PdfFormats{}` the route compares against. -/
def zeroValued : PdfFormats := { pdfA := "", pdfUa := false }

/-- `libreofficeapi.Options`, restricted to the fields the route sets. -/
structure Options where
  landscape : Bool
  pageRanges : String
  importFilter : String
  importOptions : String
  HTMLformat : Bool
  pdfFormats : PdfFormats
deriving DecidableEq, Repr

/-- A path returned by `ctx.GeneratePath(ext)`: the `id` is the number of
paths generated before it inside the request, so paths are pairwise distinct
within a request. -/
structure GenPath where
  id : Nat
  ext : String
deriving DecidableEq, Repr

/-- The form fields of the route, with their parsed values. -/
structure FormData where
  inputPaths : List String
  landscape : Bool
  nativePageRanges : String
  pdfa : String
  pdfua : Bool
  nativePdfFormats : Bool
  htmlFormat : Bool
  merge : Bool
  importFilter : String
  importOptions : String
deriving DecidableEq, Repr

/-- Errors of `libreOffice.Pdf` the route distinguishes. -/
inductive UnoError where
  | invalidPdfFormats
  | malformedPageRanges
  | other
deriving DecidableEq, Repr

/-- Errors of `engine.Convert` the route distinguishes. -/
inductive EngineError where
  | pdfFormatNotSupported
  | other
deriving DecidableEq, Repr

/-- How a run of the handler ends: `nil` return, or an error return that is a
wrapped `http.StatusBadRequest` sentinel, or any other error return. -/
inductive Failure where
  | badRequest (msg : String)
  | internal (msg : String)
deriving DecidableEq, Repr

/-- Result of a stage: a value, or the failure the handler returns. -/
inductive StageResult (α : Type) where
  | ok (val : α)
  | failed (e : Failure)
deriving DecidableEq, Repr

/-- One collaborator call made by the handler, with its arguments. -/
inductive Event where
  | htmlCall (inputPath : String) (outputPath : GenPath) (options : Options)
  | pdfCall (inputPath : String) (outputPath : GenPath) (options : Options)
  | mergeCall (inputPaths : List GenPath) (outputPath : GenPath)
  | convertCall (formats : PdfFormats) (inputPath : GenPath) (outputPath : GenPath)
  | addCall (paths : List GenPath)
deriving DecidableEq, Repr

/-- The collaborators, as oracles: `none` (or `true` for the registrar) means
the call succeeded, otherwise the value describes the returned error. -/
structure Env where
  unoHtml : String → GenPath → Options → Option Unit
  unoPdf : String → GenPath → Options → Option UnoError
  engineMerge : List GenPath → GenPath → Option Unit
  engineConvert : PdfFormats → GenPath → GenPath → Option EngineError
  ctxAddOutputPaths : List GenPath → Option Unit

/-- The `gotenberg.PdfFormats{PdfA: pdfa, PdfUa: pdfua}` value built from the
form fields. -/
def pdfFormatsOf (f : FormData) : PdfFormats := { pdfA := f.pdfa, pdfUa := f.pdfua }

/-- The `libreofficeapi.Options` value the conversion loop builds for every
document: `HTMLformat` is set only under `htmlFormat`, and `PdfFormats` is
set only under `nativePdfFormats`. -/
def buildOptions (f : FormData) : Options :=
  let options : Options :=
    { landscape := f.landscape
      pageRanges := f.nativePageRanges
      importFilter := f.importFilter
      importOptions := f.importOptions
      HTMLformat := false
      pdfFormats := zeroValued }
  let options := if f.htmlFormat then { options with HTMLformat := f.htmlFormat } else options
  if f.nativePdfFormats then { options with pdfFormats := pdfFormatsOf f } else options

/-- The extension the conversion loop passes to `ctx.GeneratePath`. -/
def extOf (f : FormData) : String := if f.htmlFormat then ".html" else ".pdf"

/-- The per-document conversion loop (lines 85-136 of the route): for each
input path, generate an output path, then call `libreOffice.Html` or
`libreOffice.Pdf`; fail fast on the first error, mapping
`ErrInvalidPdfFormats` and `ErrMalformedPageRanges` to bad requests. The
`Nat` is the `ctx.GeneratePath` counter, the event list the trace so far. -/
def convertDocs (env : Env) (f : FormData) :
    List String → Nat → List Event → StageResult (List GenPath) × Nat × List Event
  | [], n, evs => (StageResult.ok [], n, evs)
  | inputPath :: rest, n, evs =>
    let outputPath : GenPath := { id := n, ext := extOf f }
    let options := buildOptions f
    if f.htmlFormat then
      let evs := evs ++ [Event.htmlCall inputPath outputPath options]
      match env.unoHtml inputPath outputPath options with
      | some _ => (StageResult.failed (Failure.internal "convert to HTML"), n + 1, evs)
      | none =>
        match convertDocs env f rest (n + 1) evs with
        | (StageResult.ok outs, n2, evs2) => (StageResult.ok (outputPath :: outs), n2, evs2)
        | (StageResult.failed e, n2, evs2) => (StageResult.failed e, n2, evs2)
    else
      let evs := evs ++ [Event.pdfCall inputPath outputPath options]
      match env.unoPdf inputPath outputPath options with
      | some UnoError.invalidPdfFormats =>
        (StageResult.failed (Failure.badRequest "A PDF format is not supported"), n + 1, evs)
      | some UnoError.malformedPageRanges =>
        (StageResult.failed (Failure.badRequest "Malformed page ranges"), n + 1, evs)
      | some UnoError.other =>
        (StageResult.failed (Failure.internal "convert to PDF"), n + 1, evs)
      | none =>
        match convertDocs env f rest (n + 1) evs with
        | (StageResult.ok outs, n2, evs2) => (StageResult.ok (outputPath :: outs), n2, evs2)
        | (StageResult.failed e, n2, evs2) => (StageResult.failed e, n2, evs2)

/-- The per-document `engine.Convert` loop of the no-merge branch
(lines 190-211 of the route): each output path gets a fresh converted path,
failing fast and mapping `ErrPdfFormatNotSupported` to a bad request. -/
def normalizeDocs (env : Env) (formats : PdfFormats) :
    List GenPath → Nat → List Event → StageResult (List GenPath) × Nat × List Event
  | [], n, evs => (StageResult.ok [], n, evs)
  | convertInputPath :: rest, n, evs =>
    let convertOutputPath : GenPath := { id := n, ext := ".pdf" }
    let evs := evs ++ [Event.convertCall formats convertInputPath convertOutputPath]
    match env.engineConvert formats convertInputPath convertOutputPath with
    | some EngineError.pdfFormatNotSupported =>
      (StageResult.failed (Failure.badRequest "At least one PDF engine does not handle one of the PDF format"), n + 1, evs)
    | some EngineError.other =>
      (StageResult.failed (Failure.internal "convert PDF"), n + 1, evs)
    | none =>
      match normalizeDocs env formats rest (n + 1) evs with
      | (StageResult.ok outs, n2, evs2) => (StageResult.ok (convertOutputPath :: outs), n2, evs2)
      | (StageResult.failed e, n2, evs2) => (StageResult.failed e, n2, evs2)

/-- What a run of the handler produced: its return value and its trace. -/
structure RunResult where
  outcome : StageResult Unit
  events : List Event
deriving DecidableEq, Repr

/-- The final `ctx.AddOutputPaths` call shared by all successful paths of the
route, recording the registrar call and mapping its failure to an error. -/
def addPaths (env : Env) (paths : List GenPath) (evs : List Event) : RunResult :=
  let evs := evs ++ [Event.addCall paths]
  match env.ctxAddOutputPaths paths with
  | some _ => { outcome := StageResult.failed (Failure.internal "add output paths"), events := evs }
  | none => { outcome := StageResult.ok (), events := evs }

/-- The route handler (lines 22-227 of `routes.go`): validation of the
HTML-conflict rules, per-document conversion, the merge branch with its
deferred format conversion, the no-merge deferred format conversion, and the
final registration of the output paths. -/
def convertRoute (env : Env) (f : FormData) : RunResult :=
  if f.htmlFormat && f.merge && decide (1 < f.inputPaths.length) then
    { outcome := StageResult.failed (Failure.badRequest "Unable to merge multiple files using htmlFormat")
      events := [] }
  else if f.htmlFormat && (f.pdfa != "" || f.pdfua) then
    { outcome := StageResult.failed (Failure.badRequest "Both htmlFormat and nativePdfFormats form fields are provided")
      events := [] }
  else if f.htmlFormat && f.nativePageRanges != "" then
    { outcome := StageResult.failed (Failure.badRequest "Both htmlFormat and nativePageRanges form fields are provided")
      events := [] }
  else
    let pdfFormats := pdfFormatsOf f
    match convertDocs env f f.inputPaths 0 [] with
    | (StageResult.failed e, _, evs) => { outcome := StageResult.failed e, events := evs }
    | (StageResult.ok outputPaths, n, evs) =>
      if f.htmlFormat then
        addPaths env outputPaths evs
      else if decide (1 < outputPaths.length) && f.merge then
        let outputPath : GenPath := { id := n, ext := ".pdf" }
        let evs := evs ++ [Event.mergeCall outputPaths outputPath]
        match env.engineMerge outputPaths outputPath with
        | some _ => { outcome := StageResult.failed (Failure.internal "merge PDFs"), events := evs }
        | none =>
          if !f.nativePdfFormats && pdfFormats != zeroValued then
            let convertInputPath := outputPath
            let convertOutputPath : GenPath := { id := n + 1, ext := ".pdf" }
            let evs := evs ++ [Event.convertCall pdfFormats convertInputPath convertOutputPath]
            match env.engineConvert pdfFormats convertInputPath convertOutputPath with
            | some EngineError.pdfFormatNotSupported =>
              { outcome := StageResult.failed (Failure.badRequest "At least one PDF engine does not handle one of the PDF format"), events := evs }
            | some EngineError.other =>
              { outcome := StageResult.failed (Failure.internal "convert PDF"), events := evs }
            | none => addPaths env [convertOutputPath] evs
          else
            addPaths env [outputPath] evs
      else
        if !f.nativePdfFormats && pdfFormats != zeroValued then
          match normalizeDocs env pdfFormats outputPaths n evs with
          | (StageResult.failed e, _, evs2) => { outcome := StageResult.failed e, events := evs2 }
          | (StageResult.ok convertOutputPaths, _, evs2) => addPaths env convertOutputPaths evs2
        else
          addPaths env outputPaths evs

/-- Event classifier: is this a `libreOffice.Html` call. -/
def Event.isHtmlCall : Event → Bool
  | Event.htmlCall _ _ _ => true
  | _ => false

/-- Event classifier: is this a `libreOffice.Pdf` call. -/
def Event.isPdfCall : Event → Bool
  | Event.pdfCall _ _ _ => true
  | _ => false

/-- Event classifier: is this a per-document conversion call of either mode. -/
def Event.isConversionCall : Event → Bool
  | Event.htmlCall _ _ _ => true
  | Event.pdfCall _ _ _ => true
  | _ => false

/-- Event classifier: is this an `engine.Merge` call. -/
def Event.isMergeCall : Event → Bool
  | Event.mergeCall _ _ => true
  | _ => false

/-- Event classifier: is this an `engine.Convert` (format normalization) call. -/
def Event.isConvertCall : Event → Bool
  | Event.convertCall _ _ _ => true
  | _ => false

/-- Event classifier: is this a `ctx.AddOutputPaths` call. -/
def Event.isAddCall : Event → Bool
  | Event.addCall _ => true
  | _ => false

/-- All paths passed to `ctx.AddOutputPaths` calls in a trace, in order. -/
def registeredPaths (evs : List Event) : List GenPath :=
  evs.foldr (fun ev acc =>
    match ev with
    | Event.addCall ps => ps ++ acc
    | _ => acc) []

/-- The FinalArtifactSet: the registered output paths of a successful run,
and nothing for a failed run. -/
def finalArtifacts (r : RunResult) : Option (List GenPath) :=
  match r.outcome with
  | StageResult.ok _ => some (registeredPaths r.events)
  | StageResult.failed _ => none


/-- The collaborator call the conversion loop makes for input `ip` at counter
`m` succeeds (returns no error). -/
def docCallOk (env : Env) (f : FormData) (ip : String) (m : Nat) : Prop :=
  if f.htmlFormat then env.unoHtml ip { id := m, ext := extOf f } (buildOptions f) = none
  else env.unoPdf ip { id := m, ext := extOf f } (buildOptions f) = none

/-- The final artifact `p` registered for input `ip` derives from it in the
trace: either `p` is the direct conversion output for `ip`, or `p` is the
normalization output of the conversion output for `ip`. -/
def artifactForInput (evs : List Event) (ip : String) (p : GenPath) : Prop :=
  (∃ o, Event.pdfCall ip p o ∈ evs) ∨
  (∃ q o formats, Event.pdfCall ip q o ∈ evs ∧ Event.convertCall formats q p ∈ evs)

/-- A collaborator environment in which every call succeeds. -/
def envAllOk : Env :=
  { unoHtml := fun _ _ _ => none
    unoPdf := fun _ _ _ => none
    engineMerge := fun _ _ => none
    engineConvert := fun _ _ _ => none
    ctxAddOutputPaths := fun _ => none }

/-- A collaborator environment in which every `libreOffice.Pdf` call fails
with an unclassified error. -/
def envPdfFails : Env :=
  { envAllOk with unoPdf := fun _ _ _ => some UnoError.other }

/-- A concrete request: two documents, PDF mode, all options default. -/
def formBase : FormData :=
  { inputPaths := ["a.docx", "b.docx"]
    landscape := false
    nativePageRanges := ""
    pdfa := ""
    pdfua := false
    nativePdfFormats := true
    htmlFormat := false
    merge := false
    importFilter := ""
    importOptions := "" }

/-- Two documents, merge, deferred PDF/A normalization. -/
def formMergeDeferred : FormData :=
  { formBase with merge := true, nativePdfFormats := false, pdfa := "PDF/A-2b" }

/-- Two documents, merge, PDF/A requested with inline native formats. -/
def formMergeNative : FormData :=
  { formBase with merge := true, pdfa := "PDF/A-2b" }

/-- Two documents, HTML mode together with merge. -/
def formTwoHtmlMerge : FormData :=
  { formBase with htmlFormat := true, merge := true }

/-- Two documents, HTML mode together with a PDF/A variant. -/
def formHtmlPdfa : FormData :=
  { formBase with htmlFormat := true, pdfa := "PDF/A-2b" }

/-- One document, HTML mode together with merge. -/
def formOneHtmlMerge : FormData :=
  { formBase with inputPaths := ["a.docx"], htmlFormat := true, merge := true }

/-- Two documents, no merge, deferred PDF/A normalization. -/
def formNoMergeDeferred : FormData :=
  { formBase with nativePdfFormats := false, pdfa := "PDF/A-2b" }

/-! Expected shapes of the conversion and normalization loops when every
collaborator call succeeds: the generated output paths and the recorded
events, as functions of the inputs and the starting counter. -/

/-- The output paths the conversion loop generates for these inputs starting
at counter `n`. -/
def convOutPaths (f : FormData) : List String → Nat → List GenPath
  | [], _ => []
  | _ :: rest, n => { id := n, ext := extOf f } :: convOutPaths f rest (n + 1)

/-- The conversion call recorded for one input path at counter `n`. -/
def convCallEvent (f : FormData) (inputPath : String) (n : Nat) : Event :=
  if f.htmlFormat then
    Event.htmlCall inputPath { id := n, ext := extOf f } (buildOptions f)
  else
    Event.pdfCall inputPath { id := n, ext := extOf f } (buildOptions f)

/-- The conversion calls recorded for these inputs starting at counter `n`. -/
def convCallEvents (f : FormData) : List String → Nat → List Event
  | [], _ => []
  | ip :: rest, n => convCallEvent f ip n :: convCallEvents f rest (n + 1)

/-- The output paths the no-merge normalization loop generates. -/
def normOutPaths : List GenPath → Nat → List GenPath
  | [], _ => []
  | _ :: rest, n => { id := n, ext := ".pdf" } :: normOutPaths rest (n + 1)

/-- The `engine.Convert` calls the no-merge normalization loop records. -/
def normCallEvents (formats : PdfFormats) : List GenPath → Nat → List Event
  | [], _ => []
  | p :: rest, n =>
    Event.convertCall formats p { id := n, ext := ".pdf" } :: normCallEvents formats rest (n + 1)

theorem convOutPaths_length (f : FormData) :
    ∀ (ips : List String) (n : Nat), (convOutPaths f ips n).length = ips.length := by
  intro ips
  induction ips with
  | nil => intro n; rfl
  | cons ip rest ih => intro n; simp [convOutPaths, ih]

theorem convOutPaths_getElem (f : FormData) :
    ∀ (ips : List String) (n i : Nat), i < ips.length →
      (convOutPaths f ips n)[i]? = some { id := n + i, ext := extOf f } := by
  intro ips
  induction ips with
  | nil => intro n i hi; simp at hi
  | cons ip rest ih =>
    intro n i hi
    cases i with
    | zero => simp [convOutPaths]
    | succ j =>
      have hj : j < rest.length := by simpa using hi
      simp only [convOutPaths, List.getElem?_cons_succ]
      rw [ih (n + 1) j hj]
      have : n + 1 + j = n + (j + 1) := by omega
      rw [this]

theorem convOutPaths_id_bounds (f : FormData) :
    ∀ (ips : List String) (n : Nat) (p : GenPath), p ∈ convOutPaths f ips n →
      n ≤ p.id ∧ p.id < n + ips.length := by
  intro ips
  induction ips with
  | nil => intro n p hp; simp [convOutPaths] at hp
  | cons ip rest ih =>
    intro n p hp
    simp only [convOutPaths, List.mem_cons] at hp
    cases hp with
    | inl h =>
      subst h
      refine ⟨Nat.le_refl n, ?_⟩
      show n < n + (ip :: rest).length
      simp only [List.length_cons]
      omega
    | inr h =>
      have := ih (n + 1) p h
      constructor <;> [omega; (simp only [List.length_cons]; omega)]

theorem convCallEvents_length (f : FormData) :
    ∀ (ips : List String) (n : Nat), (convCallEvents f ips n).length = ips.length := by
  intro ips
  induction ips with
  | nil => intro n; rfl
  | cons ip rest ih => intro n; simp [convCallEvents, ih]

theorem convCallEvents_conversion (f : FormData) :
    ∀ (ips : List String) (n : Nat) (e : Event), e ∈ convCallEvents f ips n →
      e.isConversionCall = true := by
  intro ips
  induction ips with
  | nil => intro n e he; simp [convCallEvents] at he
  | cons ip rest ih =>
    intro n e he
    simp only [convCallEvents, List.mem_cons] at he
    cases he with
    | inl h =>
      subst h
      unfold convCallEvent
      by_cases hh : f.htmlFormat <;> simp [hh, Event.isConversionCall]
    | inr h => exact ih (n + 1) e h

theorem conversion_not_merge (e : Event) (h : e.isConversionCall = true) :
    e.isMergeCall = false := by
  cases e <;> simp_all [Event.isConversionCall, Event.isMergeCall]

theorem conversion_not_convert (e : Event) (h : e.isConversionCall = true) :
    e.isConvertCall = false := by
  cases e <;> simp_all [Event.isConversionCall, Event.isConvertCall]

theorem conversion_not_add (e : Event) (h : e.isConversionCall = true) :
    e.isAddCall = false := by
  cases e <;> simp_all [Event.isConversionCall, Event.isAddCall]

theorem convCallEvents_pdf_mem (f : FormData) (hh : f.htmlFormat = false) :
    ∀ (ips : List String) (n i : Nat) (hi : i < ips.length),
      Event.pdfCall (ips.get ⟨i, hi⟩) { id := n + i, ext := extOf f } (buildOptions f) ∈
        convCallEvents f ips n := by
  intro ips
  induction ips with
  | nil => intro n i hi; simp at hi
  | cons ip rest ih =>
    intro n i hi
    cases i with
    | zero =>
      simp only [convCallEvents, List.get, convCallEvent, hh, Bool.false_eq_true, if_false,
        Nat.add_zero]
      exact List.mem_cons_self _ _
    | succ j =>
      have hj : j < rest.length := by simpa using hi
      have := ih (n + 1) j hj
      simp only [convCallEvents, List.get]
      have harith : n + 1 + j = n + (j + 1) := by omega
      rw [harith] at this
      exact List.mem_cons_of_mem _ this

theorem convCallEvents_pdfOptions (f : FormData) :
    ∀ (ips : List String) (n : Nat) (ip : String) (op : GenPath) (o : Options),
      Event.pdfCall ip op o ∈ convCallEvents f ips n → o = buildOptions f := by
  intro ips
  induction ips with
  | nil => intro n ip op o h; simp [convCallEvents] at h
  | cons ip0 rest ih =>
    intro n ip op o h
    simp only [convCallEvents, List.mem_cons] at h
    cases h with
    | inl h =>
      unfold convCallEvent at h
      by_cases hh : f.htmlFormat <;> simp [hh] at h
      exact h.2.2
    | inr h => exact ih (n + 1) ip op o h

theorem normOutPaths_length :
    ∀ (ps : List GenPath) (n : Nat), (normOutPaths ps n).length = ps.length := by
  intro ps
  induction ps with
  | nil => intro n; rfl
  | cons p rest ih => intro n; simp [normOutPaths, ih]

theorem normOutPaths_getElem :
    ∀ (ps : List GenPath) (n i : Nat), i < ps.length →
      (normOutPaths ps n)[i]? = some { id := n + i, ext := ".pdf" } := by
  intro ps
  induction ps with
  | nil => intro n i hi; simp at hi
  | cons p rest ih =>
    intro n i hi
    cases i with
    | zero => simp [normOutPaths]
    | succ j =>
      have hj : j < rest.length := by simpa using hi
      simp only [normOutPaths, List.getElem?_cons_succ]
      rw [ih (n + 1) j hj]
      have : n + 1 + j = n + (j + 1) := by omega
      rw [this]

theorem normOutPaths_id_ge :
    ∀ (ps : List GenPath) (n : Nat) (p : GenPath), p ∈ normOutPaths ps n → n ≤ p.id := by
  intro ps
  induction ps with
  | nil => intro n p hp; simp [normOutPaths] at hp
  | cons q rest ih =>
    intro n p hp
    simp only [normOutPaths, List.mem_cons] at hp
    cases hp with
    | inl h => subst h; exact Nat.le_refl n
    | inr h => have := ih (n + 1) p h; omega

theorem normCallEvents_length (formats : PdfFormats) :
    ∀ (ps : List GenPath) (n : Nat), (normCallEvents formats ps n).length = ps.length := by
  intro ps
  induction ps with
  | nil => intro n; rfl
  | cons p rest ih => intro n; simp [normCallEvents, ih]

theorem normCallEvents_convert (formats : PdfFormats) :
    ∀ (ps : List GenPath) (n : Nat) (e : Event), e ∈ normCallEvents formats ps n →
      e.isConvertCall = true := by
  intro ps
  induction ps with
  | nil => intro n e he; simp [normCallEvents] at he
  | cons p rest ih =>
    intro n e he
    simp only [normCallEvents, List.mem_cons] at he
    cases he with
    | inl h => subst h; rfl
    | inr h => exact ih (n + 1) e h

theorem normCallEvents_mem (formats : PdfFormats) :
    ∀ (ps : List GenPath) (n i : Nat) (hi : i < ps.length),
      Event.convertCall formats (ps.get ⟨i, hi⟩) { id := n + i, ext := ".pdf" } ∈
        normCallEvents formats ps n := by
  intro ps
  induction ps with
  | nil => intro n i hi; simp at hi
  | cons p rest ih =>
    intro n i hi
    cases i with
    | zero =>
      simp only [normCallEvents, List.get, Nat.add_zero]
      exact List.mem_cons_self _ _
    | succ j =>
      have hj : j < rest.length := by simpa using hi
      have := ih (n + 1) j hj
      simp only [normCallEvents, List.get]
      have harith : n + 1 + j = n + (j + 1) := by omega
      rw [harith] at this
      exact List.mem_cons_of_mem _ this

theorem registeredPaths_cons (e : Event) (l : List Event) :
    registeredPaths (e :: l) = registeredPaths [e] ++ registeredPaths l := by
  cases e <;> simp [registeredPaths]

theorem registeredPaths_append (l1 l2 : List Event) :
    registeredPaths (l1 ++ l2) = registeredPaths l1 ++ registeredPaths l2 := by
  induction l1 with
  | nil => rfl
  | cons e rest ih =>
    rw [List.cons_append, registeredPaths_cons, registeredPaths_cons e rest,
      List.append_assoc, ih]

theorem registeredPaths_of_no_add (l : List Event) (h : ∀ e ∈ l, e.isAddCall = false) :
    registeredPaths l = [] := by
  induction l with
  | nil => rfl
  | cons e rest ih =>
    have he := h e (List.mem_cons_self _ _)
    have hrest := ih fun x hx => h x (List.mem_cons_of_mem _ hx)
    rw [registeredPaths_cons, hrest]
    cases e
    case addCall ps => simp [Event.isAddCall] at he
    all_goals rfl

/-! Characterizations of the two loops on successful runs. -/

theorem convertDocs_ok_eq (env : Env) (f : FormData) :
    ∀ (ips : List String) (n : Nat) (evs : List Event) (outs : List GenPath) (n2 : Nat)
      (evs2 : List Event),
      convertDocs env f ips n evs = (StageResult.ok outs, n2, evs2) →
      outs = convOutPaths f ips n ∧ n2 = n + ips.length ∧
        evs2 = evs ++ convCallEvents f ips n := by
  intro ips
  induction ips with
  | nil =>
    intro n evs outs n2 evs2 h
    simp only [convertDocs, Prod.mk.injEq, StageResult.ok.injEq] at h
    obtain ⟨h1, h2, h3⟩ := h
    exact ⟨h1.symm, by simp [h2.symm], by simp [h3.symm, convCallEvents]⟩
  | cons ip rest ih =>
    intro n evs outs n2 evs2 h
    simp only [convertDocs] at h
    by_cases hh : f.htmlFormat
    · rw [if_pos hh] at h
      cases hu : env.unoHtml ip { id := n, ext := extOf f } (buildOptions f) with
      | some u => rw [hu] at h; exact absurd h (by simp)
      | none =>
        rw [hu] at h
        rcases hcd : convertDocs env f rest (n + 1)
            (evs ++ [Event.htmlCall ip { id := n, ext := extOf f } (buildOptions f)]) with
          ⟨res, n3, evs3⟩
        rw [hcd] at h
        cases res with
        | failed e => exact absurd h (by simp)
        | ok outs3 =>
          rw [Prod.mk.injEq, Prod.mk.injEq, StageResult.ok.injEq] at h
          obtain ⟨h1, h2, h3⟩ := h
          obtain ⟨ho3, hn3, he3⟩ := ih (n + 1) _ outs3 n3 evs3 hcd
          refine ⟨?_, ?_, ?_⟩
          · rw [← h1, ho3, convOutPaths]
          · rw [← h2, hn3, List.length_cons]; omega
          · rw [← h3, he3, convCallEvents, convCallEvent, if_pos hh, List.append_assoc,
              List.singleton_append]
    · rw [if_neg hh] at h
      cases hu : env.unoPdf ip { id := n, ext := extOf f } (buildOptions f) with
      | some u => rw [hu] at h; cases u <;> exact absurd h (by simp)
      | none =>
        rw [hu] at h
        rcases hcd : convertDocs env f rest (n + 1)
            (evs ++ [Event.pdfCall ip { id := n, ext := extOf f } (buildOptions f)]) with
          ⟨res, n3, evs3⟩
        rw [hcd] at h
        cases res with
        | failed e => exact absurd h (by simp)
        | ok outs3 =>
          rw [Prod.mk.injEq, Prod.mk.injEq, StageResult.ok.injEq] at h
          obtain ⟨h1, h2, h3⟩ := h
          obtain ⟨ho3, hn3, he3⟩ := ih (n + 1) _ outs3 n3 evs3 hcd
          refine ⟨?_, ?_, ?_⟩
          · rw [← h1, ho3, convOutPaths]
          · rw [← h2, hn3, List.length_cons]; omega
          · rw [← h3, he3, convCallEvents, convCallEvent, if_neg hh, List.append_assoc,
              List.singleton_append]

theorem normalizeDocs_ok_eq (env : Env) (formats : PdfFormats) :
    ∀ (ps : List GenPath) (n : Nat) (evs : List Event) (outs : List GenPath) (n2 : Nat)
      (evs2 : List Event),
      normalizeDocs env formats ps n evs = (StageResult.ok outs, n2, evs2) →
      outs = normOutPaths ps n ∧ n2 = n + ps.length ∧
        evs2 = evs ++ normCallEvents formats ps n := by
  intro ps
  induction ps with
  | nil =>
    intro n evs outs n2 evs2 h
    simp only [normalizeDocs, Prod.mk.injEq, StageResult.ok.injEq] at h
    obtain ⟨h1, h2, h3⟩ := h
    exact ⟨h1.symm, by simp [h2.symm], by simp [h3.symm, normCallEvents]⟩
  | cons p rest ih =>
    intro n evs outs n2 evs2 h
    simp only [normalizeDocs] at h
    cases hu : env.engineConvert formats p { id := n, ext := ".pdf" } with
    | some u => rw [hu] at h; cases u <;> exact absurd h (by simp)
    | none =>
      rw [hu] at h
      rcases hcd : normalizeDocs env formats rest (n + 1)
          (evs ++ [Event.convertCall formats p { id := n, ext := ".pdf" }]) with
        ⟨res, n3, evs3⟩
      rw [hcd] at h
      cases res with
      | failed e => exact absurd h (by simp)
      | ok outs3 =>
        rw [Prod.mk.injEq, Prod.mk.injEq, StageResult.ok.injEq] at h
        obtain ⟨h1, h2, h3⟩ := h
        obtain ⟨ho3, hn3, he3⟩ := ih (n + 1) _ outs3 n3 evs3 hcd
        refine ⟨?_, ?_, ?_⟩
        · rw [← h1, ho3, normOutPaths]
        · rw [← h2, hn3, List.length_cons]; omega
        · rw [← h3, he3, normCallEvents, List.append_assoc, List.singleton_append]


theorem registeredPaths_nil : registeredPaths [] = [] := rfl

theorem registeredPaths_cons_html (ip : String) (op : GenPath) (o : Options) (l : List Event) :
    registeredPaths (Event.htmlCall ip op o :: l) = registeredPaths l := rfl

theorem registeredPaths_cons_pdf (ip : String) (op : GenPath) (o : Options) (l : List Event) :
    registeredPaths (Event.pdfCall ip op o :: l) = registeredPaths l := rfl

theorem registeredPaths_cons_merge (ins : List GenPath) (op : GenPath) (l : List Event) :
    registeredPaths (Event.mergeCall ins op :: l) = registeredPaths l := rfl

theorem registeredPaths_cons_convert (fo : PdfFormats) (a b : GenPath) (l : List Event) :
    registeredPaths (Event.convertCall fo a b :: l) = registeredPaths l := rfl

theorem registeredPaths_cons_add (ps : List GenPath) (l : List Event) :
    registeredPaths (Event.addCall ps :: l) = ps ++ registeredPaths l := rfl

theorem registeredPaths_convCallEvents (f : FormData) (ips : List String) (n : Nat) :
    registeredPaths (convCallEvents f ips n) = [] :=
  registeredPaths_of_no_add _ fun e he =>
    conversion_not_add e (convCallEvents_conversion f ips n e he)

theorem registeredPaths_normCallEvents (formats : PdfFormats) (ps : List GenPath) (n : Nat) :
    registeredPaths (normCallEvents formats ps n) = [] := by
  refine registeredPaths_of_no_add _ fun e he => ?_
  have := normCallEvents_convert formats ps n e he
  cases e <;> simp_all [Event.isConvertCall, Event.isAddCall]

theorem filter_merge_convCallEvents (f : FormData) (ips : List String) (n : Nat) :
    (convCallEvents f ips n).filter Event.isMergeCall = [] :=
  List.filter_eq_nil_iff.mpr fun e he => by
    simp [conversion_not_merge e (convCallEvents_conversion f ips n e he)]

theorem filter_convert_convCallEvents (f : FormData) (ips : List String) (n : Nat) :
    (convCallEvents f ips n).filter Event.isConvertCall = [] :=
  List.filter_eq_nil_iff.mpr fun e he => by
    simp [conversion_not_convert e (convCallEvents_conversion f ips n e he)]

theorem filter_add_convCallEvents (f : FormData) (ips : List String) (n : Nat) :
    (convCallEvents f ips n).filter Event.isAddCall = [] :=
  List.filter_eq_nil_iff.mpr fun e he => by
    simp [conversion_not_add e (convCallEvents_conversion f ips n e he)]

theorem filter_conversion_convCallEvents (f : FormData) (ips : List String) (n : Nat) :
    (convCallEvents f ips n).filter Event.isConversionCall = convCallEvents f ips n :=
  List.filter_eq_self.mpr fun e he => convCallEvents_conversion f ips n e he

theorem filter_convert_normCallEvents (formats : PdfFormats) (ps : List GenPath) (n : Nat) :
    (normCallEvents formats ps n).filter Event.isConvertCall = normCallEvents formats ps n :=
  List.filter_eq_self.mpr fun e he => normCallEvents_convert formats ps n e he

theorem filter_merge_normCallEvents (formats : PdfFormats) (ps : List GenPath) (n : Nat) :
    (normCallEvents formats ps n).filter Event.isMergeCall = [] :=
  List.filter_eq_nil_iff.mpr fun e he => by
    have := normCallEvents_convert formats ps n e he
    cases e <;> simp_all [Event.isConvertCall, Event.isMergeCall]

theorem buildOptions_pdfFormats_of_native (f : FormData) (h : f.nativePdfFormats = true) :
    (buildOptions f).pdfFormats = pdfFormatsOf f := by
  unfold buildOptions
  by_cases hh : f.htmlFormat <;> simp [hh, h]

/-! Full characterizations of the handler on successful runs, one per branch
of the decision logic. -/

/-- Merge branch with deferred normalization: on a successful PDF-mode run
with more than one input, merge requested, native formats opted out and a
non-empty format spec, the trace is the per-document conversions, then one
merge of all conversion outputs, then one `engine.Convert` of the merged
artifact, then the registration of the converted artifact. -/
theorem run_merge_norm (env : Env) (f : FormData)
    (hh : f.htmlFormat = false) (hm : f.merge = true)
    (hlen : 1 < f.inputPaths.length)
    (hnat : f.nativePdfFormats = false) (hfz : pdfFormatsOf f ≠ zeroValued)
    (hok : (convertRoute env f).outcome = StageResult.ok ()) :
    convertRoute env f =
      { outcome := StageResult.ok ()
        events := convCallEvents f f.inputPaths 0 ++
          [Event.mergeCall (convOutPaths f f.inputPaths 0)
             { id := f.inputPaths.length, ext := ".pdf" },
           Event.convertCall (pdfFormatsOf f)
             { id := f.inputPaths.length, ext := ".pdf" }
             { id := f.inputPaths.length + 1, ext := ".pdf" },
           Event.addCall [{ id := f.inputPaths.length + 1, ext := ".pdf" }]] } := by
  unfold convertRoute at hok ⊢
  simp only [hh, hm, Bool.false_and, Bool.and_true, Bool.false_eq_true, if_false] at hok ⊢
  rcases hcd : convertDocs env f f.inputPaths 0 [] with ⟨res, n, evs⟩
  rw [hcd] at hok
  cases res with
  | failed e => simp at hok
  | ok outs =>
    obtain ⟨ho, hn, he⟩ := convertDocs_ok_eq env f f.inputPaths 0 [] outs n evs hcd
    have hlen2 : (1 < outs.length) = True := by
      rw [ho, convOutPaths_length]; simp [hlen]
    simp only [hlen2, decide_True, if_true, hnat, Bool.not_false, Bool.true_and,
      bne_iff_ne, ne_eq, hfz, not_false_eq_true] at hok ⊢
    cases hmg : env.engineMerge outs { id := n, ext := ".pdf" } with
    | some u => rw [hmg] at hok; simp at hok
    | none =>
      rw [hmg] at hok
      cases hcv : env.engineConvert (pdfFormatsOf f) { id := n, ext := ".pdf" }
          { id := n + 1, ext := ".pdf" } with
      | some u => rw [hcv] at hok; cases u <;> simp at hok
      | none =>
        rw [hcv] at hok
        unfold addPaths at hok ⊢
        cases hadd : env.ctxAddOutputPaths [{ id := n + 1, ext := ".pdf" }] with
        | some u => rw [hadd] at hok; simp at hok
        | none =>
          rw [ho, he, hn]
          simp [List.append_assoc]



/-- Merge branch without deferred normalization (native formats inline, or
empty format spec): conversions, one merge, then registration of the merged
artifact itself. -/
theorem run_merge_nonorm (env : Env) (f : FormData)
    (hh : f.htmlFormat = false) (hm : f.merge = true)
    (hlen : 1 < f.inputPaths.length)
    (hnn : f.nativePdfFormats = true ∨ pdfFormatsOf f = zeroValued)
    (hok : (convertRoute env f).outcome = StageResult.ok ()) :
    convertRoute env f =
      { outcome := StageResult.ok ()
        events := convCallEvents f f.inputPaths 0 ++
          [Event.mergeCall (convOutPaths f f.inputPaths 0)
             { id := f.inputPaths.length, ext := ".pdf" },
           Event.addCall [{ id := f.inputPaths.length, ext := ".pdf" }]] } := by
  have hcond : (!f.nativePdfFormats && (pdfFormatsOf f != zeroValued)) = false := by
    rcases hnn with h | h
    · rw [h]; rfl
    · rw [h]; simp
  unfold convertRoute at hok ⊢
  simp only [hh, hm, Bool.false_and, Bool.and_true, Bool.false_eq_true, if_false] at hok ⊢
  rcases hcd : convertDocs env f f.inputPaths 0 [] with ⟨res, n, evs⟩
  rw [hcd] at hok
  cases res with
  | failed e => simp at hok
  | ok outs =>
    obtain ⟨ho, hn, he⟩ := convertDocs_ok_eq env f f.inputPaths 0 [] outs n evs hcd
    have hlen2 : (1 < outs.length) = True := by
      rw [ho, convOutPaths_length]; simp [hlen]
    simp only [hlen2, decide_True, if_true, hcond, Bool.false_eq_true, if_false] at hok ⊢
    cases hmg : env.engineMerge outs { id := n, ext := ".pdf" } with
    | some u => rw [hmg] at hok; simp at hok
    | none =>
      rw [hmg] at hok
      unfold addPaths at hok ⊢
      cases hadd : env.ctxAddOutputPaths [{ id := n, ext := ".pdf" }] with
      | some u => rw [hadd] at hok; simp at hok
      | none =>
        rw [ho, he, hn]
        simp [List.append_assoc]

/-- No-merge branch with deferred normalization: conversions, one
`engine.Convert` per conversion output in order, then registration of the
normalized artifacts. -/
theorem run_nomerge_norm (env : Env) (f : FormData)
    (hh : f.htmlFormat = false)
    (hnom : f.merge = false ∨ ¬ 1 < f.inputPaths.length)
    (hnat : f.nativePdfFormats = false) (hfz : pdfFormatsOf f ≠ zeroValued)
    (hok : (convertRoute env f).outcome = StageResult.ok ()) :
    convertRoute env f =
      { outcome := StageResult.ok ()
        events := convCallEvents f f.inputPaths 0 ++
          normCallEvents (pdfFormatsOf f) (convOutPaths f f.inputPaths 0)
            f.inputPaths.length ++
          [Event.addCall
            (normOutPaths (convOutPaths f f.inputPaths 0) f.inputPaths.length)] } := by
  unfold convertRoute at hok ⊢
  simp only [hh, Bool.false_and, Bool.false_eq_true, if_false] at hok ⊢
  rcases hcd : convertDocs env f f.inputPaths 0 [] with ⟨res, n, evs⟩
  rw [hcd] at hok
  cases res with
  | failed e => simp at hok
  | ok outs =>
    obtain ⟨ho, hn, he⟩ := convertDocs_ok_eq env f f.inputPaths 0 [] outs n evs hcd
    have hcond : (decide (1 < outs.length) && f.merge) = false := by
      rcases hnom with h | h
      · rw [h]; simp
      · rw [ho, convOutPaths_length]
        simp [decide_eq_false h]
    simp only [hcond, Bool.false_eq_true, if_false, hnat, Bool.not_false, Bool.true_and,
      bne_iff_ne, ne_eq, hfz, not_false_eq_true, if_true] at hok ⊢
    rcases hnd : normalizeDocs env (pdfFormatsOf f) outs n evs with ⟨res2, n4, evs4⟩
    rw [hnd] at hok
    cases res2 with
    | failed e => simp at hok
    | ok nouts =>
      obtain ⟨ho2, hn2, he2⟩ := normalizeDocs_ok_eq env (pdfFormatsOf f) outs n evs nouts n4 evs4 hnd
      cases hadd : env.ctxAddOutputPaths nouts with
      | some u => simp [addPaths, hadd] at hok
      | none =>
        simp only [addPaths, hadd]
        rw [ho2, he2, ho, he, hn]
        simp [List.append_assoc]

/-- No-merge branch without deferred normalization: conversions, then
registration of the conversion outputs themselves. -/
theorem run_nomerge_nonorm (env : Env) (f : FormData)
    (hh : f.htmlFormat = false)
    (hnom : f.merge = false ∨ ¬ 1 < f.inputPaths.length)
    (hnn : f.nativePdfFormats = true ∨ pdfFormatsOf f = zeroValued)
    (hok : (convertRoute env f).outcome = StageResult.ok ()) :
    convertRoute env f =
      { outcome := StageResult.ok ()
        events := convCallEvents f f.inputPaths 0 ++
          [Event.addCall (convOutPaths f f.inputPaths 0)] } := by
  have hcond : (!f.nativePdfFormats && (pdfFormatsOf f != zeroValued)) = false := by
    rcases hnn with h | h
    · rw [h]; rfl
    · rw [h]; simp
  unfold convertRoute at hok ⊢
  simp only [hh, Bool.false_and, Bool.false_eq_true, if_false] at hok ⊢
  rcases hcd : convertDocs env f f.inputPaths 0 [] with ⟨res, n, evs⟩
  rw [hcd] at hok
  cases res with
  | failed e => simp at hok
  | ok outs =>
    obtain ⟨ho, hn, he⟩ := convertDocs_ok_eq env f f.inputPaths 0 [] outs n evs hcd
    have hcond2 : (decide (1 < outs.length) && f.merge) = false := by
      rcases hnom with h | h
      · rw [h]; simp
      · rw [ho, convOutPaths_length]
        simp [decide_eq_false h]
    simp only [hcond2, hcond, Bool.false_eq_true, if_false] at hok ⊢
    unfold addPaths at hok ⊢
    cases hadd : env.ctxAddOutputPaths outs with
    | some u => rw [hadd] at hok; simp at hok
    | none =>
      rw [ho, he]
      simp [List.append_assoc]

/-- HTML mode: on a successful run the trace is the per-document HTML
conversions followed by registration of their outputs; no merge and no
normalization call occurs. -/
theorem run_html (env : Env) (f : FormData)
    (hhtml : f.htmlFormat = true)
    (hok : (convertRoute env f).outcome = StageResult.ok ()) :
    convertRoute env f =
      { outcome := StageResult.ok ()
        events := convCallEvents f f.inputPaths 0 ++
          [Event.addCall (convOutPaths f f.inputPaths 0)] } := by
  unfold convertRoute at hok ⊢
  cases hv1 : (f.htmlFormat && f.merge && decide (1 < f.inputPaths.length)) with
  | true => rw [hv1] at hok; simp at hok
  | false =>
    rw [hv1] at hok
    simp only [Bool.false_eq_true, if_false] at hok ⊢
    cases hv2 : (f.htmlFormat && (f.pdfa != "" || f.pdfua)) with
    | true => rw [hv2] at hok; simp at hok
    | false =>
      rw [hv2] at hok
      simp only [Bool.false_eq_true, if_false] at hok ⊢
      cases hv3 : (f.htmlFormat && f.nativePageRanges != "") with
      | true => rw [hv3] at hok; simp at hok
      | false =>
        rw [hv3] at hok
        simp only [Bool.false_eq_true, if_false] at hok ⊢
        rcases hcd : convertDocs env f f.inputPaths 0 [] with ⟨res, n, evs⟩
        rw [hcd] at hok
        cases res with
        | failed e => simp at hok
        | ok outs =>
          obtain ⟨ho, hn, he⟩ := convertDocs_ok_eq env f f.inputPaths 0 [] outs n evs hcd
          simp only [hhtml, if_true] at hok ⊢
          unfold addPaths at hok ⊢
          cases hadd : env.ctxAddOutputPaths outs with
          | some u => rw [hadd] at hok; simp at hok
          | none =>
            rw [ho, he]
            simp [List.append_assoc]



/-- Fail-fast characterization of the conversion loop: if the calls for the
first `i` documents succeed and the call for document `i` fails, the loop
stops right there, returning a failure with exactly the first `i + 1`
conversion calls in the trace. -/
theorem convertDocs_err (env : Env) (f : FormData) :
    ∀ (ips : List String) (n : Nat) (evs : List Event) (i : Nat) (hi : i < ips.length),
      (∀ j (hj : j < i), docCallOk env f (ips.get ⟨j, Nat.lt_trans hj hi⟩) (n + j)) →
      ¬ docCallOk env f (ips.get ⟨i, hi⟩) (n + i) →
      ∃ e, convertDocs env f ips n evs =
        (StageResult.failed e, n + i + 1, evs ++ convCallEvents f (ips.take (i + 1)) n) := by
  intro ips
  induction ips with
  | nil => intro n evs i hi; simp at hi
  | cons ip rest ih =>
    intro n evs i hi hbefore hfail
    cases i with
    | zero =>
      have hfail0 : ¬ docCallOk env f ip n := by
        intro hco
        apply hfail
        show docCallOk env f ip (n + 0)
        simpa using hco
      unfold docCallOk at hfail0
      simp only [convertDocs]
      by_cases hh : f.htmlFormat
      · rw [if_pos hh] at hfail0 ⊢
        cases hu : env.unoHtml ip { id := n, ext := extOf f } (buildOptions f) with
        | none => exact absurd hu hfail0
        | some u =>
          exact ⟨Failure.internal "convert to HTML",
            by simp [hh, convCallEvents, convCallEvent]⟩
      · rw [if_neg hh] at hfail0 ⊢
        cases hu : env.unoPdf ip { id := n, ext := extOf f } (buildOptions f) with
        | none => exact absurd hu hfail0
        | some u =>
          cases u with
          | invalidPdfFormats =>
            exact ⟨Failure.badRequest "A PDF format is not supported",
              by simp [hh, convCallEvents, convCallEvent]⟩
          | malformedPageRanges =>
            exact ⟨Failure.badRequest "Malformed page ranges",
              by simp [hh, convCallEvents, convCallEvent]⟩
          | other =>
            exact ⟨Failure.internal "convert to PDF",
              by simp [hh, convCallEvents, convCallEvent]⟩
    | succ k =>
      have hk : k < rest.length := by simpa using hi
      have h0 : docCallOk env f ip n := by
        have h1 := hbefore 0 (Nat.succ_pos k)
        simpa using h1
      have hshift : ∀ j (hj : j < k),
          docCallOk env f (rest.get ⟨j, Nat.lt_trans hj hk⟩) (n + 1 + j) := by
        intro j hj
        have h1 := hbefore (j + 1) (by omega)
        have harith : n + (j + 1) = n + 1 + j := by omega
        rw [harith] at h1
        exact h1
      have hfail2 : ¬ docCallOk env f (rest.get ⟨k, hk⟩) (n + 1 + k) := by
        intro hco
        apply hfail
        have harith : n + (k + 1) = n + 1 + k := by omega
        rw [harith]
        exact hco
      unfold docCallOk at h0
      simp only [convertDocs]
      by_cases hh : f.htmlFormat
      · rw [if_pos hh] at h0 ⊢
        obtain ⟨e, heq⟩ := ih (n + 1)
          (evs ++ [Event.htmlCall ip { id := n, ext := extOf f } (buildOptions f)]) k hk
          hshift hfail2
        refine ⟨e, ?_⟩
        rw [h0, heq]
        have harith : n + 1 + k + 1 = n + (k + 1) + 1 := by omega
        rw [harith]
        simp [hh, convCallEvents, convCallEvent, List.take_succ_cons, List.append_assoc]
      · rw [if_neg hh] at h0 ⊢
        obtain ⟨e, heq⟩ := ih (n + 1)
          (evs ++ [Event.pdfCall ip { id := n, ext := extOf f } (buildOptions f)]) k hk
          hshift hfail2
        refine ⟨e, ?_⟩
        rw [h0, heq]
        have harith : n + 1 + k + 1 = n + (k + 1) + 1 := by omega
        rw [harith]
        simp [hh, convCallEvents, convCallEvent, List.take_succ_cons, List.append_assoc]

/-! The claims. -/

/-- C6: for every request with HTML mode active, merge requested and more
than one input document, validation rejects the request as a caller-facing
bad request before any collaborator call is made: the handler returns the
bad-request failure with an empty call trace. -/
theorem claim_C6_html_merge_rejected (env : Env) (f : FormData)
    (hhtml : f.htmlFormat = true) (hm : f.merge = true)
    (hlen : 1 < f.inputPaths.length) :
    ∃ msg, convertRoute env f =
      { outcome := StageResult.failed (Failure.badRequest msg), events := [] } := by
  have hc : (f.htmlFormat && f.merge && decide (1 < f.inputPaths.length)) = true := by
    rw [hhtml, hm]
    simp [hlen]
  refine ⟨"Unable to merge multiple files using htmlFormat", ?_⟩
  unfold convertRoute
  rw [hc]
  simp

/-- C7: for every request with HTML mode active and a non-empty target
format spec (PDF/A variant non-empty or PDF/UA flag set), validation rejects
the request as a caller-facing bad request before any conversion call: the
handler returns a bad-request failure with an empty call trace. -/
theorem claim_C7_html_pdf_format_rejected (env : Env) (f : FormData)
    (hhtml : f.htmlFormat = true) (hfmt : f.pdfa ≠ "" ∨ f.pdfua = true) :
    ∃ msg, convertRoute env f =
      { outcome := StageResult.failed (Failure.badRequest msg), events := [] } := by
  unfold convertRoute
  cases hv1 : (f.htmlFormat && f.merge && decide (1 < f.inputPaths.length)) with
  | true => exact ⟨"Unable to merge multiple files using htmlFormat", by simp⟩
  | false =>
    have hc : (f.htmlFormat && (f.pdfa != "" || f.pdfua)) = true := by
      rw [hhtml]
      rcases hfmt with h | h
      · simp [h]
      · simp [h]
    rw [hc]
    exact ⟨"Both htmlFormat and nativePdfFormats form fields are provided", by simp⟩

/-- C3: every successful PDF-mode request with more than one input and merge
requested registers exactly one output path: the FinalArtifactSet is a
one-element list. -/
theorem claim_C3_merge_single_artifact (env : Env) (f : FormData)
    (hh : f.htmlFormat = false) (hm : f.merge = true) (hlen : 1 < f.inputPaths.length)
    (hok : (convertRoute env f).outcome = StageResult.ok ()) :
    ∃ p, finalArtifacts (convertRoute env f) = some [p] := by
  by_cases hdef : f.nativePdfFormats = false ∧ pdfFormatsOf f ≠ zeroValued
  · obtain ⟨hnat, hfz⟩ := hdef
    refine ⟨{ id := f.inputPaths.length + 1, ext := ".pdf" }, ?_⟩
    rw [run_merge_norm env f hh hm hlen hnat hfz hok]
    simp [finalArtifacts, registeredPaths_append, registeredPaths_convCallEvents,
      registeredPaths_cons_merge, registeredPaths_cons_convert, registeredPaths_cons_add,
      registeredPaths_nil]
  · have hnn : f.nativePdfFormats = true ∨ pdfFormatsOf f = zeroValued := by
      rcases not_and_or.mp hdef with h | h
      · exact Or.inl (by revert h; cases f.nativePdfFormats <;> simp)
      · exact Or.inr (not_not.mp h)
    refine ⟨{ id := f.inputPaths.length, ext := ".pdf" }, ?_⟩
    rw [run_merge_nonorm env f hh hm hlen hnn hok]
    simp [finalArtifacts, registeredPaths_append, registeredPaths_convCallEvents,
      registeredPaths_cons_merge, registeredPaths_cons_add, registeredPaths_nil]

/-- C9: a request with HTML mode active, exactly one input document and merge
requested (and no other conflicting option) is not rejected: the merge flag
is silently ignored, no merge call occurs, and the request succeeds with a
FinalArtifactSet of exactly one HTML artifact. -/
theorem claim_C9_single_html_merge_ignored (env : Env) (f : FormData) (ip : String)
    (hhtml : f.htmlFormat = true) (hm : f.merge = true)
    (hips : f.inputPaths = [ip])
    (hpa : f.pdfa = "") (hpu : f.pdfua = false) (hpr : f.nativePageRanges = "")
    (hconv : env.unoHtml ip { id := 0, ext := ".html" } (buildOptions f) = none)
    (hadd : env.ctxAddOutputPaths [{ id := 0, ext := ".html" }] = none) :
    convertRoute env f =
      { outcome := StageResult.ok ()
        events := [Event.htmlCall ip { id := 0, ext := ".html" } (buildOptions f),
                   Event.addCall [{ id := 0, ext := ".html" }]] } ∧
    (convertRoute env f).events.filter Event.isMergeCall = [] ∧
    finalArtifacts (convertRoute env f) = some [{ id := 0, ext := ".html" }] := by
  have hext : extOf f = ".html" := by simp [extOf, hhtml]
  have hrun : convertRoute env f =
      { outcome := StageResult.ok ()
        events := [Event.htmlCall ip { id := 0, ext := ".html" } (buildOptions f),
                   Event.addCall [{ id := 0, ext := ".html" }]] } := by
    unfold convertRoute
    rw [hips]
    simp [hhtml, hm, hpa, hpu, hpr, convertDocs, addPaths, hext, hconv, hadd]
  refine ⟨hrun, ?_, ?_⟩
  · rw [hrun]
    simp [Event.isMergeCall]
  · rw [hrun]
    simp [finalArtifacts, registeredPaths]


/-- C1: on every successful PDF-mode request where both merge and deferred
normalization apply (more than one input, merge requested, native formats
opted out, non-empty format spec), the trace contains exactly one merge call
and exactly one normalization call; the normalization call is applied to the
merge output, which is none of the pre-merge per-document artifacts, and the
merge call strictly precedes the normalization call. -/
theorem claim_C1_merge_precedes_normalize (env : Env) (f : FormData)
    (hh : f.htmlFormat = false) (hm : f.merge = true)
    (hlen : 1 < f.inputPaths.length)
    (hnat : f.nativePdfFormats = false) (hfz : pdfFormatsOf f ≠ zeroValued)
    (hok : (convertRoute env f).outcome = StageResult.ok ()) :
    ∃ (i j : Nat) (ins : List GenPath) (mOut cOut : GenPath),
      (convertRoute env f).events[i]? = some (Event.mergeCall ins mOut) ∧
      (convertRoute env f).events[j]? =
        some (Event.convertCall (pdfFormatsOf f) mOut cOut) ∧
      i < j ∧ mOut ∉ ins ∧
      ((convertRoute env f).events.filter Event.isMergeCall).length = 1 ∧
      ((convertRoute env f).events.filter Event.isConvertCall).length = 1 := by
  rw [run_merge_norm env f hh hm hlen hnat hfz hok]
  refine ⟨(convCallEvents f f.inputPaths 0).length,
    (convCallEvents f f.inputPaths 0).length + 1, convOutPaths f f.inputPaths 0,
    { id := f.inputPaths.length, ext := ".pdf" },
    { id := f.inputPaths.length + 1, ext := ".pdf" }, ?_, ?_, ?_, ?_, ?_, ?_⟩
  · rw [List.getElem?_append_right (le_refl (convCallEvents f f.inputPaths 0).length)]
    simp
  · rw [List.getElem?_append_right
      (by omega :
        (convCallEvents f f.inputPaths 0).length ≤ (convCallEvents f f.inputPaths 0).length + 1)]
    simp
  · omega
  · intro hmem
    have hb := convOutPaths_id_bounds f f.inputPaths 0 _ hmem
    simp at hb
  · rw [List.filter_append, filter_merge_convCallEvents]
    simp [Event.isMergeCall, Event.isConvertCall, Event.isAddCall]
  · rw [List.filter_append, filter_convert_convCallEvents]
    simp [Event.isMergeCall, Event.isConvertCall, Event.isAddCall]

/-- C10: on every successful PDF-mode request with nativePdfFormats true, a
non-empty format spec, more than one input and merge requested, no
post-merge normalization call occurs; the format spec is instead carried
inline in the options of every per-document conversion call, and the raw
merge output is registered as the single final artifact. -/
theorem claim_C10_native_merge_no_normalize (env : Env) (f : FormData)
    (hh : f.htmlFormat = false) (hm : f.merge = true)
    (hlen : 1 < f.inputPaths.length)
    (hnat : f.nativePdfFormats = true) (hfz : pdfFormatsOf f ≠ zeroValued)
    (hok : (convertRoute env f).outcome = StageResult.ok ()) :
    (convertRoute env f).events.filter Event.isConvertCall = [] ∧
    (∀ ip op o, Event.pdfCall ip op o ∈ (convertRoute env f).events →
      o.pdfFormats = pdfFormatsOf f) ∧
    ∃ ins mOut, Event.mergeCall ins mOut ∈ (convertRoute env f).events ∧
      finalArtifacts (convertRoute env f) = some [mOut] := by
  rw [run_merge_nonorm env f hh hm hlen (Or.inl hnat) hok]
  refine ⟨?_, ?_, ?_⟩
  · rw [List.filter_append, filter_convert_convCallEvents]
    simp [Event.isConvertCall]
  · intro ip op o hmem
    rcases List.mem_append.mp hmem with h | h
    · rw [convCallEvents_pdfOptions f f.inputPaths 0 ip op o h]
      exact buildOptions_pdfFormats_of_native f hnat
    · simp at h
  · refine ⟨convOutPaths f f.inputPaths 0,
      { id := f.inputPaths.length, ext := ".pdf" }, ?_, ?_⟩
    · exact List.mem_append_right _ (List.mem_cons_self _ _)
    · simp [finalArtifacts, registeredPaths_append, registeredPaths_convCallEvents,
        registeredPaths_cons_merge, registeredPaths_cons_add, registeredPaths_nil]


/-- Helper linking `List.get` with a `getElem?` fact. -/
theorem get_of_getElem_some {α : Type} (l : List α) (i : Nat) (hi : i < l.length) (a : α)
    (h : l[i]? = some a) : l.get ⟨i, hi⟩ = a := by
  rw [List.getElem?_eq_getElem hi] at h
  simpa [List.get_eq_getElem] using Option.some.inj h

/-- C4: every successful PDF-mode request where merge does not apply (merge
not requested, or only one input) registers exactly one output path per
input document, in input order: the i-th registered artifact derives from
the i-th input (it is its conversion output, or the normalization output of
its conversion output when deferred normalization applies). -/
theorem claim_C4_no_merge_one_per_input (env : Env) (f : FormData)
    (hh : f.htmlFormat = false)
    (hnom : f.merge = false ∨ ¬ 1 < f.inputPaths.length)
    (hok : (convertRoute env f).outcome = StageResult.ok ()) :
    ∃ l, finalArtifacts (convertRoute env f) = some l ∧
      l.length = f.inputPaths.length ∧
      ∀ i, i < f.inputPaths.length →
        ∀ ip, f.inputPaths[i]? = some ip →
        ∀ p, l[i]? = some p →
          artifactForInput (convertRoute env f).events ip p := by
  by_cases hdef : f.nativePdfFormats = false ∧ pdfFormatsOf f ≠ zeroValued
  · obtain ⟨hnat, hfz⟩ := hdef
    rw [run_nomerge_norm env f hh hnom hnat hfz hok]
    refine ⟨normOutPaths (convOutPaths f f.inputPaths 0) f.inputPaths.length, ?_, ?_, ?_⟩
    · simp [finalArtifacts, registeredPaths_append, registeredPaths_convCallEvents,
        registeredPaths_normCallEvents, registeredPaths_cons_add, registeredPaths_nil]
    · rw [normOutPaths_length, convOutPaths_length]
    · intro i hi ip hip p hp
      have hlen2 : i < (convOutPaths f f.inputPaths 0).length := by
        rw [convOutPaths_length]; exact hi
      have hpl : (normOutPaths (convOutPaths f f.inputPaths 0) f.inputPaths.length)[i]? =
          some { id := f.inputPaths.length + i, ext := ".pdf" } :=
        normOutPaths_getElem (convOutPaths f f.inputPaths 0) f.inputPaths.length i hlen2
      rw [hp] at hpl
      have hpval : p = { id := f.inputPaths.length + i, ext := ".pdf" } :=
        Option.some.inj hpl
      have hipval : f.inputPaths.get ⟨i, hi⟩ = ip :=
        get_of_getElem_some f.inputPaths i hi ip hip
      have hqval : (convOutPaths f f.inputPaths 0).get ⟨i, hlen2⟩ =
          { id := 0 + i, ext := extOf f } :=
        get_of_getElem_some _ i hlen2 _ (convOutPaths_getElem f f.inputPaths 0 i hi)
      right
      refine ⟨{ id := 0 + i, ext := extOf f }, buildOptions f, pdfFormatsOf f, ?_, ?_⟩
      · apply List.mem_append_left
        apply List.mem_append_left
        have hmem := convCallEvents_pdf_mem f hh f.inputPaths 0 i hi
        rw [hipval] at hmem
        exact hmem
      · apply List.mem_append_left
        apply List.mem_append_right
        have hmem := normCallEvents_mem (pdfFormatsOf f) (convOutPaths f f.inputPaths 0)
          f.inputPaths.length i hlen2
        rw [hqval] at hmem
        rw [hpval]
        exact hmem
  · have hnn : f.nativePdfFormats = true ∨ pdfFormatsOf f = zeroValued := by
      rcases not_and_or.mp hdef with h | h
      · exact Or.inl (by revert h; cases f.nativePdfFormats <;> simp)
      · exact Or.inr (not_not.mp h)
    rw [run_nomerge_nonorm env f hh hnom hnn hok]
    refine ⟨convOutPaths f f.inputPaths 0, ?_, ?_, ?_⟩
    · simp [finalArtifacts, registeredPaths_append, registeredPaths_convCallEvents,
        registeredPaths_cons_add, registeredPaths_nil]
    · exact convOutPaths_length f f.inputPaths 0
    · intro i hi ip hip p hp
      have hipval : f.inputPaths.get ⟨i, hi⟩ = ip :=
        get_of_getElem_some f.inputPaths i hi ip hip
      have hpval : p = { id := 0 + i, ext := extOf f } := by
        have h2 := convOutPaths_getElem f f.inputPaths 0 i hi
        rw [hp] at h2
        exact Option.some.inj h2
      left
      refine ⟨buildOptions f, ?_⟩
      apply List.mem_append_left
      have hmem := convCallEvents_pdf_mem f hh f.inputPaths 0 i hi
      rw [hipval] at hmem
      rw [hpval]
      exact hmem

/-- C8: on every successful PDF-mode request where deferred normalization
applies and merge does not, each per-document artifact is normalized
independently and in input order: the i-th registered artifact is the
`engine.Convert` output whose input is the i-th conversion output, and the
pre-normalization artifacts are not part of the FinalArtifactSet. -/
theorem claim_C8_each_normalized (env : Env) (f : FormData)
    (hh : f.htmlFormat = false)
    (hnom : f.merge = false ∨ ¬ 1 < f.inputPaths.length)
    (hnat : f.nativePdfFormats = false) (hfz : pdfFormatsOf f ≠ zeroValued)
    (hok : (convertRoute env f).outcome = StageResult.ok ()) :
    ∃ l, finalArtifacts (convertRoute env f) = some l ∧
      l.length = f.inputPaths.length ∧
      ∀ i, i < f.inputPaths.length →
        ∀ ip, f.inputPaths[i]? = some ip →
        ∀ p, l[i]? = some p →
          ∃ q o, Event.pdfCall ip q o ∈ (convertRoute env f).events ∧
            Event.convertCall (pdfFormatsOf f) q p ∈ (convertRoute env f).events ∧
            q ∉ l := by
  rw [run_nomerge_norm env f hh hnom hnat hfz hok]
  refine ⟨normOutPaths (convOutPaths f f.inputPaths 0) f.inputPaths.length, ?_, ?_, ?_⟩
  · simp [finalArtifacts, registeredPaths_append, registeredPaths_convCallEvents,
      registeredPaths_normCallEvents, registeredPaths_cons_add, registeredPaths_nil]
  · rw [normOutPaths_length, convOutPaths_length]
  · intro i hi ip hip p hp
    have hlen2 : i < (convOutPaths f f.inputPaths 0).length := by
      rw [convOutPaths_length]; exact hi
    have hpl : (normOutPaths (convOutPaths f f.inputPaths 0) f.inputPaths.length)[i]? =
        some { id := f.inputPaths.length + i, ext := ".pdf" } :=
      normOutPaths_getElem (convOutPaths f f.inputPaths 0) f.inputPaths.length i hlen2
    rw [hp] at hpl
    have hpval : p = { id := f.inputPaths.length + i, ext := ".pdf" } :=
      Option.some.inj hpl
    have hipval : f.inputPaths.get ⟨i, hi⟩ = ip :=
      get_of_getElem_some f.inputPaths i hi ip hip
    have hqval : (convOutPaths f f.inputPaths 0).get ⟨i, hlen2⟩ =
        { id := 0 + i, ext := extOf f } :=
      get_of_getElem_some _ i hlen2 _ (convOutPaths_getElem f f.inputPaths 0 i hi)
    refine ⟨{ id := 0 + i, ext := extOf f }, buildOptions f, ?_, ?_, ?_⟩
    · apply List.mem_append_left
      apply List.mem_append_left
      have hmem := convCallEvents_pdf_mem f hh f.inputPaths 0 i hi
      rw [hipval] at hmem
      exact hmem
    · apply List.mem_append_left
      apply List.mem_append_right
      have hmem := normCallEvents_mem (pdfFormatsOf f) (convOutPaths f f.inputPaths 0)
        f.inputPaths.length i hlen2
      rw [hqval] at hmem
      rw [hpval]
      exact hmem
    · intro hqmem
      have hge := normOutPaths_id_ge (convOutPaths f f.inputPaths 0)
        f.inputPaths.length _ hqmem
      simp at hge
      omega


/-- C5: on every successful request with at least one input, the
post-conversion normalization stage (`engine.Convert`) is invoked if and
only if the request is in PDF mode, native formats were opted out and the
format spec is non-empty; and whenever nativePdfFormats is true, every
per-document conversion call carries the format spec inline in its
options. -/
theorem claim_C5_normalize_iff_deferred (env : Env) (f : FormData)
    (hne : f.inputPaths ≠ [])
    (hok : (convertRoute env f).outcome = StageResult.ok ()) :
    ((convertRoute env f).events.filter Event.isConvertCall ≠ [] ↔
      (f.htmlFormat = false ∧ f.nativePdfFormats = false ∧
        pdfFormatsOf f ≠ zeroValued)) ∧
    (f.nativePdfFormats = true →
      ∀ ip op o, Event.pdfCall ip op o ∈ (convertRoute env f).events →
        o.pdfFormats = pdfFormatsOf f) := by
  by_cases hh : f.htmlFormat = true
  · rw [run_html env f hh hok]
    constructor
    · constructor
      · intro hne2
        exfalso
        apply hne2
        rw [List.filter_append, filter_convert_convCallEvents]
        simp [Event.isConvertCall]
      · rintro ⟨hhf, -⟩
        rw [hh] at hhf
        exact Bool.noConfusion hhf
    · intro hnat ip op o hmem
      rcases List.mem_append.mp hmem with h | h
      · rw [convCallEvents_pdfOptions f f.inputPaths 0 ip op o h]
        exact buildOptions_pdfFormats_of_native f hnat
      · simp at h
  · have hh2 : f.htmlFormat = false := by revert hh; cases f.htmlFormat <;> simp
    by_cases hmg : 1 < f.inputPaths.length ∧ f.merge = true
    · obtain ⟨hlen, hm⟩ := hmg
      by_cases hdef : f.nativePdfFormats = false ∧ pdfFormatsOf f ≠ zeroValued
      · obtain ⟨hnat, hfz⟩ := hdef
        rw [run_merge_norm env f hh2 hm hlen hnat hfz hok]
        refine ⟨⟨fun _ => ⟨hh2, hnat, hfz⟩, fun _ => ?_⟩, fun hnat2 => ?_⟩
        · apply List.ne_nil_of_length_pos
          rw [List.filter_append, filter_convert_convCallEvents]
          simp [Event.isConvertCall, Event.isMergeCall, Event.isAddCall]
        · rw [hnat2] at hnat
          exact Bool.noConfusion hnat
      · have hnn : f.nativePdfFormats = true ∨ pdfFormatsOf f = zeroValued := by
          rcases not_and_or.mp hdef with h | h
          · exact Or.inl (by revert h; cases f.nativePdfFormats <;> simp)
          · exact Or.inr (not_not.mp h)
        rw [run_merge_nonorm env f hh2 hm hlen hnn hok]
        refine ⟨⟨fun hne2 => ?_, fun hcond => ?_⟩, fun hnat ip op o hmem => ?_⟩
        · exfalso
          apply hne2
          rw [List.filter_append, filter_convert_convCallEvents]
          simp [Event.isConvertCall]
        · exfalso
          obtain ⟨-, hnat, hfz⟩ := hcond
          rcases hnn with h | h
          · rw [h] at hnat; exact Bool.noConfusion hnat
          · exact hfz h
        · rcases List.mem_append.mp hmem with h | h
          · rw [convCallEvents_pdfOptions f f.inputPaths 0 ip op o h]
            exact buildOptions_pdfFormats_of_native f hnat
          · simp at h
    · have hnom : f.merge = false ∨ ¬ 1 < f.inputPaths.length := by
        rcases not_and_or.mp hmg with h | h
        · exact Or.inr h
        · exact Or.inl (by revert h; cases f.merge <;> simp)
      by_cases hdef : f.nativePdfFormats = false ∧ pdfFormatsOf f ≠ zeroValued
      · obtain ⟨hnat, hfz⟩ := hdef
        rw [run_nomerge_norm env f hh2 hnom hnat hfz hok]
        refine ⟨⟨fun _ => ⟨hh2, hnat, hfz⟩, fun _ => ?_⟩, fun hnat2 => ?_⟩
        · apply List.ne_nil_of_length_pos
          rw [List.filter_append, List.filter_append, filter_convert_convCallEvents,
            filter_convert_normCallEvents, List.length_append, List.length_append,
            normCallEvents_length, convOutPaths_length]
          have hpos := List.length_pos.mpr hne
          omega
        · rw [hnat2] at hnat
          exact Bool.noConfusion hnat
      · have hnn : f.nativePdfFormats = true ∨ pdfFormatsOf f = zeroValued := by
          rcases not_and_or.mp hdef with h | h
          · exact Or.inl (by revert h; cases f.nativePdfFormats <;> simp)
          · exact Or.inr (not_not.mp h)
        rw [run_nomerge_nonorm env f hh2 hnom hnn hok]
        refine ⟨⟨fun hne2 => ?_, fun hcond => ?_⟩, fun hnat ip op o hmem => ?_⟩
        · exfalso
          apply hne2
          rw [List.filter_append, filter_convert_convCallEvents]
          simp [Event.isConvertCall]
        · exfalso
          obtain ⟨-, hnat, hfz⟩ := hcond
          rcases hnn with h | h
          · rw [h] at hnat; exact Bool.noConfusion hnat
          · exact hfz h
        · rcases List.mem_append.mp hmem with h | h
          · rw [convCallEvents_pdfOptions f f.inputPaths 0 ip op o h]
            exact buildOptions_pdfFormats_of_native f hnat
          · simp at h


/-- C2: if, on a request that passes validation, the per-document conversion
of document `i` fails (while the earlier ones succeed), the handler returns
an error having made no merge call, no normalization call and no
registration call, with exactly `i + 1` conversion calls (so no later
document is converted) and no FinalArtifactSet. -/
theorem claim_C2_conversion_failure_aborts (env : Env) (f : FormData) (i : Nat)
    (hv1 : (f.htmlFormat && f.merge && decide (1 < f.inputPaths.length)) = false)
    (hv2 : (f.htmlFormat && (f.pdfa != "" || f.pdfua)) = false)
    (hv3 : (f.htmlFormat && f.nativePageRanges != "") = false)
    (hi : i < f.inputPaths.length)
    (hbefore : ∀ j (hj : j < i),
      docCallOk env f (f.inputPaths.get ⟨j, Nat.lt_trans hj hi⟩) j)
    (hfail : ¬ docCallOk env f (f.inputPaths.get ⟨i, hi⟩) i) :
    (∃ e, (convertRoute env f).outcome = StageResult.failed e) ∧
    (convertRoute env f).events.filter Event.isMergeCall = [] ∧
    (convertRoute env f).events.filter Event.isConvertCall = [] ∧
    (convertRoute env f).events.filter Event.isAddCall = [] ∧
    ((convertRoute env f).events.filter Event.isConversionCall).length = i + 1 ∧
    finalArtifacts (convertRoute env f) = none := by
  have hbefore0 : ∀ j (hj : j < i),
      docCallOk env f (f.inputPaths.get ⟨j, Nat.lt_trans hj hi⟩) (0 + j) := by
    intro j hj
    rw [Nat.zero_add]
    exact hbefore j hj
  have hfail0 : ¬ docCallOk env f (f.inputPaths.get ⟨i, hi⟩) (0 + i) := by
    rw [Nat.zero_add]
    exact hfail
  obtain ⟨e, heq⟩ := convertDocs_err env f f.inputPaths 0 [] i hi hbefore0 hfail0
  have hrun : convertRoute env f =
      { outcome := StageResult.failed e
        events := convCallEvents f (f.inputPaths.take (i + 1)) 0 } := by
    unfold convertRoute
    rw [hv1, hv2, hv3]
    simp only [Bool.false_eq_true, if_false]
    rw [heq]
    simp
  rw [hrun]
  refine ⟨⟨e, rfl⟩, filter_merge_convCallEvents f _ 0,
    filter_convert_convCallEvents f _ 0, filter_add_convCallEvents f _ 0, ?_, rfl⟩
  rw [filter_conversion_convCallEvents, convCallEvents_length, List.length_take]
  omega


/-! Witness instantiations of the claims at concrete requests. -/

/-- Witness for C1 at the two-document deferred-normalization merge request. -/
theorem claim_C1_witness :
    (convertRoute envAllOk formMergeDeferred).outcome = StageResult.ok () ∧
    (∃ (i j : Nat) (ins : List GenPath) (mOut cOut : GenPath),
      (convertRoute envAllOk formMergeDeferred).events[i]? =
        some (Event.mergeCall ins mOut) ∧
      (convertRoute envAllOk formMergeDeferred).events[j]? =
        some (Event.convertCall (pdfFormatsOf formMergeDeferred) mOut cOut) ∧
      i < j ∧ mOut ∉ ins ∧
      ((convertRoute envAllOk formMergeDeferred).events.filter
        Event.isMergeCall).length = 1 ∧
      ((convertRoute envAllOk formMergeDeferred).events.filter
        Event.isConvertCall).length = 1) :=
  ⟨rfl, claim_C1_merge_precedes_normalize envAllOk formMergeDeferred rfl rfl (by decide)
    rfl (by decide) rfl⟩

/-- Witness for C2 at the request whose first PDF conversion fails. -/
theorem claim_C2_witness :
    (0 : Nat) < formBase.inputPaths.length ∧
    ((∃ e, (convertRoute envPdfFails formBase).outcome = StageResult.failed e) ∧
     (convertRoute envPdfFails formBase).events.filter Event.isMergeCall = [] ∧
     (convertRoute envPdfFails formBase).events.filter Event.isConvertCall = [] ∧
     (convertRoute envPdfFails formBase).events.filter Event.isAddCall = [] ∧
     ((convertRoute envPdfFails formBase).events.filter
       Event.isConversionCall).length = 0 + 1 ∧
     finalArtifacts (convertRoute envPdfFails formBase) = none) :=
  ⟨by decide,
    claim_C2_conversion_failure_aborts envPdfFails formBase 0 rfl rfl rfl (by decide)
      (fun j hj => absurd hj (Nat.not_lt_zero j))
      (fun h => Option.noConfusion h)⟩

/-- Witness for C3 at the two-document deferred-normalization merge request. -/
theorem claim_C3_witness :
    (convertRoute envAllOk formMergeDeferred).outcome = StageResult.ok () ∧
    ∃ p, finalArtifacts (convertRoute envAllOk formMergeDeferred) = some [p] :=
  ⟨rfl, claim_C3_merge_single_artifact envAllOk formMergeDeferred rfl rfl (by decide) rfl⟩

/-- Witness for C4 at the two-document default request without merge. -/
theorem claim_C4_witness :
    (convertRoute envAllOk formBase).outcome = StageResult.ok () ∧
    ∃ l, finalArtifacts (convertRoute envAllOk formBase) = some l ∧
      l.length = formBase.inputPaths.length ∧
      ∀ i, i < formBase.inputPaths.length →
        ∀ ip, formBase.inputPaths[i]? = some ip →
        ∀ p, l[i]? = some p →
          artifactForInput (convertRoute envAllOk formBase).events ip p :=
  ⟨rfl, claim_C4_no_merge_one_per_input envAllOk formBase rfl (Or.inl rfl) rfl⟩

/-- Witness for C5 at the two-document native-format merge request. -/
theorem claim_C5_witness :
    (convertRoute envAllOk formMergeNative).outcome = StageResult.ok () ∧
    (((convertRoute envAllOk formMergeNative).events.filter Event.isConvertCall ≠ [] ↔
      (formMergeNative.htmlFormat = false ∧ formMergeNative.nativePdfFormats = false ∧
        pdfFormatsOf formMergeNative ≠ zeroValued)) ∧
    (formMergeNative.nativePdfFormats = true →
      ∀ ip op o, Event.pdfCall ip op o ∈ (convertRoute envAllOk formMergeNative).events →
        o.pdfFormats = pdfFormatsOf formMergeNative)) :=
  ⟨rfl, claim_C5_normalize_iff_deferred envAllOk formMergeNative (by decide) rfl⟩

/-- Witness for C6 at the two-document HTML-with-merge request. -/
theorem claim_C6_witness :
    1 < formTwoHtmlMerge.inputPaths.length ∧
    ∃ msg, convertRoute envAllOk formTwoHtmlMerge =
      { outcome := StageResult.failed (Failure.badRequest msg), events := [] } :=
  ⟨by decide, claim_C6_html_merge_rejected envAllOk formTwoHtmlMerge rfl rfl (by decide)⟩

/-- Witness for C7 at the HTML request carrying a PDF/A variant. -/
theorem claim_C7_witness :
    formHtmlPdfa.pdfa ≠ "" ∧
    ∃ msg, convertRoute envAllOk formHtmlPdfa =
      { outcome := StageResult.failed (Failure.badRequest msg), events := [] } :=
  ⟨by decide, claim_C7_html_pdf_format_rejected envAllOk formHtmlPdfa rfl
    (Or.inl (by decide))⟩

/-- Witness for C8 at the two-document no-merge deferred-normalization request. -/
theorem claim_C8_witness :
    (convertRoute envAllOk formNoMergeDeferred).outcome = StageResult.ok () ∧
    ∃ l, finalArtifacts (convertRoute envAllOk formNoMergeDeferred) = some l ∧
      l.length = formNoMergeDeferred.inputPaths.length ∧
      ∀ i, i < formNoMergeDeferred.inputPaths.length →
        ∀ ip, formNoMergeDeferred.inputPaths[i]? = some ip →
        ∀ p, l[i]? = some p →
          ∃ q o, Event.pdfCall ip q o ∈ (convertRoute envAllOk formNoMergeDeferred).events ∧
            Event.convertCall (pdfFormatsOf formNoMergeDeferred) q p ∈
              (convertRoute envAllOk formNoMergeDeferred).events ∧
            q ∉ l :=
  ⟨rfl, claim_C8_each_normalized envAllOk formNoMergeDeferred rfl (Or.inl rfl) rfl
    (by decide) rfl⟩

/-- Witness for C9 at the single-document HTML-with-merge request. -/
theorem claim_C9_witness :
    formOneHtmlMerge.merge = true ∧
    (convertRoute envAllOk formOneHtmlMerge =
      { outcome := StageResult.ok ()
        events := [Event.htmlCall "a.docx" { id := 0, ext := ".html" }
                     (buildOptions formOneHtmlMerge),
                   Event.addCall [{ id := 0, ext := ".html" }]] } ∧
    (convertRoute envAllOk formOneHtmlMerge).events.filter Event.isMergeCall = [] ∧
    finalArtifacts (convertRoute envAllOk formOneHtmlMerge) =
      some [{ id := 0, ext := ".html" }]) :=
  ⟨rfl, claim_C9_single_html_merge_ignored envAllOk formOneHtmlMerge "a.docx" rfl rfl rfl
    rfl rfl rfl rfl rfl⟩

/-- Witness for C10 at the two-document native-format merge request. -/
theorem claim_C10_witness :
    formMergeNative.nativePdfFormats = true ∧
    ((convertRoute envAllOk formMergeNative).events.filter Event.isConvertCall = [] ∧
    (∀ ip op o, Event.pdfCall ip op o ∈ (convertRoute envAllOk formMergeNative).events →
      o.pdfFormats = pdfFormatsOf formMergeNative) ∧
    ∃ ins mOut, Event.mergeCall ins mOut ∈ (convertRoute envAllOk formMergeNative).events ∧
      finalArtifacts (convertRoute envAllOk formMergeNative) = some [mOut]) :=
  ⟨rfl, claim_C10_native_merge_no_normalize envAllOk formMergeNative rfl rfl (by decide) rfl
    (by decide) rfl⟩

end Gotenberg
